import Mathlib

/-
Verification development for the Emart apriori recommendation service
(src/main.py).  The Python program is shallowly embedded: pure fragments
become Lean functions, the MongoDB stats collection becomes an explicit
list-of-documents state, the rules file on disk becomes an explicit
`FileState`, and the float arithmetic of the miner is stated exactly as
integer fractions (`Frac`), interpreted into ℚ by `Frac.toRat`.

The rule miner itself is the external `apyori` library (version 1.1.2,
the only published release), called by `update_apriori_rules_sync`.  Its
single-file implementation (TransactionManager.calc_support,
create_next_candidates, gen_support_records, gen_ordered_statistics,
filter_ordered_statistics, apriori) is embedded below.  A point that
matters for the claims: `apyori.apriori(transactions, **kwargs)` reads
only the keyword arguments min_support, min_confidence, min_lift and
max_length; the `min_length=2` argument passed at src/main.py line 247
is silently swallowed by `**kwargs` and has no effect on the output.
-/

/-! ## Exact fractions

The Python code computes supports, confidences and lifts with float
division and compares them with `<`.  The embedding states those values
exactly: a `Frac` is an unreduced numerator/denominator pair, division
is cross multiplication, and the strict-order test is the cross
multiplication test (which agrees with the rational order whenever both
denominators are positive, the only case the program reaches). -/

structure Frac where
  num : Int
  den : Int
deriving DecidableEq, Repr

/-- Division of fractions, as produced by the float divisions in
`gen_ordered_statistics`: no normalisation is performed. -/
def Frac.div (a b : Frac) : Frac := ⟨a.num * b.den, a.den * b.num⟩

/-- The strict-order test `a < b` used by the miner's threshold filters,
by cross multiplication. -/
def Frac.ltb (a b : Frac) : Bool := a.num * b.den < b.num * a.den

/-- Interpretation of a `Frac` as a rational number. -/
def Frac.toRat (a : Frac) : ℚ := (a.num : ℚ) / (a.den : ℚ)

/-! ## Strings and sorting

`apyori` sorts item identifiers with Python `sorted`, i.e. by code
points.  The embedding uses an insertion sort with the code-point
comparison on the underlying character lists. -/

/-- Code-point comparison of character lists (Python string `<=`). -/
def charListLe : List Char → List Char → Bool
  | [], _ => true
  | _ :: _, [] => false
  | c :: cs, d :: ds =>
    if c.toNat < d.toNat then true
    else if d.toNat < c.toNat then false
    else charListLe cs ds

/-- Python string comparison `a <= b`. -/
def strLeb (a b : String) : Bool := charListLe a.data b.data

/-- Insert a string into a sorted list (auxiliary to `sortStrs`). -/
def insortStr (x : String) : List String → List String
  | [] => [x]
  | y :: ys => if strLeb x y then x :: y :: ys else y :: insortStr x ys

/-- Python `sorted` on a list of strings (the inputs it receives here
are duplicate-free, so stability is irrelevant). -/
def sortStrs (l : List String) : List String := l.foldr insortStr []

/-! ## The apyori transaction manager -/

/-- A basket: the list of product identifiers of one transaction. -/
abbrev Basket := List String

/-- Test that transaction `t` contains every item of `items`
(`apyori.TransactionManager.calc_support` intersects the per-item
transaction index sets; a transaction is in the intersection exactly
when it contains all the items). -/
def containsAll (t : Basket) (items : List String) : Bool :=
  items.all (fun i => t.contains i)

/-- `apyori.TransactionManager.calc_support`: the empty itemset has
support 1.0, any itemset has support 0.0 over zero transactions, and
otherwise the support is the fraction of transactions containing all
the items. -/
def calc_support (txs : List Basket) (items : List String) : Frac :=
  if items.isEmpty then ⟨1, 1⟩
  else if txs.length = 0 then ⟨0, 1⟩
  else ⟨(txs.countP (fun t => containsAll t items) : Int), (txs.length : Int)⟩

/-- `apyori.TransactionManager.items`: the distinct items of the
transactions, sorted (Python keeps first-seen order and then sorts). -/
def transactionItems (txs : List Basket) : List String :=
  sortStrs txs.flatten.dedup

/-- `apyori.TransactionManager.initial_candidates`: the singleton
itemsets. -/
def initial_candidates (txs : List Basket) : List (List String) :=
  (transactionItems txs).map (fun i => [i])

/-! ## Candidate generation and support records

Itemsets are represented as sorted duplicate-free lists of items, the
order `apyori` itself uses when it enumerates `combinations` of sorted
items; equality of such lists coincides with equality of the
corresponding frozensets. -/

/-- `apyori.create_next_candidates`: all size-`length` subsets of the
items occurring in the previous frequent itemsets; from size 3 on, only
those whose maximal proper subsets were all frequent. -/
def create_next_candidates (prev : List (List String)) (length : Nat) :
    List (List String) :=
  let items := sortStrs prev.flatten.dedup
  let tmp := items.sublistsLen length
  if length < 3 then tmp
  else tmp.filter (fun c => (c.sublistsLen (length - 1)).all (fun x => prev.contains x))

/-- `apyori.SupportRecord`: a frequent itemset with its support. -/
structure SupportRecord where
  items : List String
  support : Frac
deriving DecidableEq, Repr

/-- The `while candidates` loop of `apyori.gen_support_records`, with
explicit fuel (each iteration considers candidates one element larger,
so `|items| + 2` iterations always reach the empty candidate list;
`max_length` is `None` here and the loop never breaks early). -/
def gen_support_records_loop (txs : List Basket) (min_support : Frac) :
    Nat → List (List String) → Nat → List SupportRecord
  | 0, _, _ => []
  | fuel + 1, candidates, length =>
    if candidates.isEmpty then []
    else
      let recs := candidates.filterMap (fun c =>
        let s := calc_support txs c
        if Frac.ltb s min_support then none else some ⟨c, s⟩)
      let relations := recs.map SupportRecord.items
      recs ++ gen_support_records_loop txs min_support fuel
        (create_next_candidates relations (length + 1)) (length + 1)

/-- `apyori.gen_support_records` (with `max_length = None`). -/
def gen_support_records (txs : List Basket) (min_support : Frac) :
    List SupportRecord :=
  gen_support_records_loop txs min_support
    ((transactionItems txs).length + 2) (initial_candidates txs) 1

/-! ## Ordered statistics and rule records -/

/-- `apyori.OrderedStatistic`: one directional split of a frequent
itemset. -/
structure OrderedStatistic where
  items_base : List String
  items_add : List String
  confidence : Frac
  lift : Frac
deriving DecidableEq, Repr

/-- Set difference `items.difference(base)` on the sorted list
representation. -/
def listDiff (items base : List String) : List String :=
  items.filter (fun i => !(base.contains i))

/-- `apyori.gen_ordered_statistics`: for every base size from 0 to
`|items| - 1` and every base of that size, the implication
base → rest with its confidence and lift. -/
def gen_ordered_statistics (txs : List Basket) (record : SupportRecord) :
    List OrderedStatistic :=
  (List.range record.items.length).flatMap (fun base_length =>
    (record.items.sublistsLen base_length).map (fun items_base =>
      let items_add := listDiff record.items items_base
      let confidence := record.support.div (calc_support txs items_base)
      let lift := confidence.div (calc_support txs items_add)
      ⟨items_base, items_add, confidence, lift⟩))

/-- `apyori.filter_ordered_statistics`: drop statistics below the
confidence or lift threshold. -/
def filter_ordered_statistics (stats : List OrderedStatistic)
    (min_confidence min_lift : Frac) : List OrderedStatistic :=
  stats.filter (fun os =>
    !(Frac.ltb os.confidence min_confidence) && !(Frac.ltb os.lift min_lift))

/-- One record of the persisted rules list, as built in
`update_apriori_rules_sync` (src/main.py lines 253-259): `antecedents`
and `consequents` are the item lists of one ordered statistic, `support`
is the support of the whole itemset. -/
structure RuleData where
  antecedents : List String
  consequents : List String
  support : Frac
  confidence : Frac
  lift : Frac
deriving DecidableEq, Repr

/-- The flattened rules list produced by the `for rule in
rules_generator: for ordered_stat in rule.ordered_statistics:` loop of
`update_apriori_rules_sync`, i.e. `apyori.apriori` followed by the
flattening.  Note the absence of a `min_length` parameter:
`apyori.apriori` accepts only `min_support`, `min_confidence`,
`min_lift` and `max_length`, and the `min_length=2` keyword passed by
src/main.py line 247 is ignored. -/
def apriori_rules_list (txs : List Basket)
    (min_support min_confidence min_lift : Frac) : List RuleData :=
  (gen_support_records txs min_support).flatMap (fun record =>
    (filter_ordered_statistics (gen_ordered_statistics txs record)
        min_confidence min_lift).map (fun os =>
      ⟨os.items_base, os.items_add, record.support, os.confidence, os.lift⟩))

/-- The configured `min_support=0.001` (src/main.py line 244), stated
exactly as a rational. -/
def MIN_SUPPORT : Frac := ⟨1, 1000⟩

/-- The configured `min_confidence=0.2` (src/main.py line 245), stated
exactly as a rational. -/
def MIN_CONFIDENCE : Frac := ⟨1, 5⟩

/-- The configured `min_lift=1.0` (src/main.py line 246). -/
def MIN_LIFT : Frac := ⟨1, 1⟩

/-! ## The persisted rules file and JSON

`get_rules` (src/main.py lines 273-294) reads the rules file, returns
the Python list `[]` when the content strips to nothing, parses it with
`json.loads` otherwise, and maps a missing file to HTTP 404 and a
`JSONDecodeError` to HTTP 500.  The embedding carries the file as an
optional string and implements a JSON value parser for the subset
relevant here (no `\uXXXX` escapes and no exponent notation; numbers
are kept as exact fractions). -/

inductive Json where
  | null : Json
  | boolean : Bool → Json
  | num : Frac → Json
  | str : String → Json
  | arr : List Json → Json
  | obj : List (String × Json) → Json

/-- JSON insignificant whitespace (the characters `json.loads` skips). -/
def isJsonWs (c : Char) : Bool :=
  c = ' ' || c = '\t' || c = '\n' || c = '\r'

/-- Drop leading JSON whitespace. -/
def skipWs : List Char → List Char
  | [] => []
  | c :: cs => if isJsonWs c then skipWs cs else c :: cs

/-- Leading decimal digits of a character list, and the remainder. -/
def takeDigits : List Char → List Char × List Char
  | [] => ([], [])
  | c :: cs =>
    if c.isDigit then
      let p := takeDigits cs
      (c :: p.1, p.2)
    else ([], c :: cs)

/-- Numeric value of a digit list. -/
def digitsToNat (l : List Char) : Nat :=
  l.foldl (fun acc c => acc * 10 + (c.toNat - Char.toNat '0')) 0

/-- Resolution of a JSON string escape character (the `\uXXXX` form is
outside the embedded subset and is rejected). -/
def escapeChar (c : Char) : Option Char :=
  if c = '"' then some '"'
  else if c = '\\' then some '\\'
  else if c = '/' then some '/'
  else if c = 'n' then some '\n'
  else if c = 't' then some '\t'
  else if c = 'r' then some '\r'
  else if c = 'b' then some (Char.ofNat 8)
  else if c = 'f' then some (Char.ofNat 12)
  else none

/-- Body of a JSON string, after the opening quote; returns the string
and the input past the closing quote. -/
def parseStringBody : Nat → List Char → Option (String × List Char)
  | 0, _ => none
  | _ + 1, [] => none
  | fuel + 1, c :: cs =>
    if c = '"' then some ("", cs)
    else if c = '\\' then
      match cs with
      | [] => none
      | e :: rest =>
        match escapeChar e with
        | none => none
        | some ec =>
          (parseStringBody fuel rest).map (fun p => (String.mk (ec :: p.1.data), p.2))
    else
      (parseStringBody fuel cs).map (fun p => (String.mk (c :: p.1.data), p.2))

/-- A JSON number: optional minus sign, digits, optional fractional
part (exponent notation is outside the embedded subset). -/
def parseNumber (input : List Char) : Option (Frac × List Char) :=
  let p := fun (l : List Char) =>
    match takeDigits l with
    | ([], _) => none
    | (ds, rest) =>
      match rest with
      | '.' :: rest2 =>
        match takeDigits rest2 with
        | ([], _) => none
        | (fs, rest3) =>
          some ((⟨(digitsToNat ds * 10 ^ fs.length + digitsToNat fs : Int),
                 (10 ^ fs.length : Int)⟩ : Frac), rest3)
      | _ => some ((⟨(digitsToNat ds : Int), 1⟩ : Frac), rest)
  match input with
  | '-' :: rest => (p rest).map (fun q => (⟨-q.1.num, q.1.den⟩, q.2))
  | _ => p input

/-- Literal match of a keyword tail such as `ull` for `null`. -/
def expectChars : List Char → List Char → Option (List Char)
  | [], rest => some rest
  | _, [] => none
  | e :: es, c :: cs => if c = e then expectChars es cs else none

mutual

/-- One JSON value, by recursion on fuel (any fuel at least the input
length suffices). -/
def parseValue : Nat → List Char → Option (Json × List Char)
  | 0, _ => none
  | fuel + 1, input =>
    match skipWs input with
    | [] => none
    | c :: cs =>
      if c = 'n' then (expectChars ['u', 'l', 'l'] cs).map (fun r => (Json.null, r))
      else if c = 't' then (expectChars ['r', 'u', 'e'] cs).map (fun r => (Json.boolean true, r))
      else if c = 'f' then (expectChars ['a', 'l', 's', 'e'] cs).map (fun r => (Json.boolean false, r))
      else if c = '"' then (parseStringBody (fuel + 1) cs).map (fun p => (Json.str p.1, p.2))
      else if c = '[' then
        match skipWs cs with
        | ']' :: rest => some (Json.arr [], rest)
        | rest => (parseElems fuel rest).map (fun p => (Json.arr p.1, p.2))
      else if c = Char.ofNat 123 then
        match skipWs cs with
        | d :: rest =>
          if d = Char.ofNat 125 then some (Json.obj [], rest)
          else (parseFields fuel (d :: rest)).map (fun p => (Json.obj p.1, p.2))
        | [] => none
      else (parseNumber (c :: cs)).map (fun p => (Json.num p.1, p.2))

/-- Comma-separated JSON array elements up to the closing bracket. -/
def parseElems : Nat → List Char → Option (List Json × List Char)
  | 0, _ => none
  | fuel + 1, input =>
    match parseValue fuel input with
    | none => none
    | some (v, rest) =>
      match skipWs rest with
      | ',' :: rest2 => (parseElems fuel rest2).map (fun p => (v :: p.1, p.2))
      | ']' :: rest2 => some ([v], rest2)
      | _ => none

/-- Comma-separated JSON object members up to the closing brace. -/
def parseFields : Nat → List Char → Option (List (String × Json) × List Char)
  | 0, _ => none
  | fuel + 1, input =>
    match skipWs input with
    | '"' :: cs =>
      match parseStringBody (fuel + 1) cs with
      | none => none
      | some (k, rest) =>
        match skipWs rest with
        | ':' :: rest2 =>
          match parseValue fuel rest2 with
          | none => none
          | some (v, rest3) =>
            match skipWs rest3 with
            | ',' :: rest4 => (parseFields fuel rest4).map (fun p => ((k, v) :: p.1, p.2))
            | d :: rest4 =>
              if d = Char.ofNat 125 then some ([(k, v)], rest4) else none
            | [] => none
        | _ => none
    | _ => none

end

/-- `json.loads`: parse one JSON document, requiring only whitespace
after it; `None` models a raised `json.JSONDecodeError`. -/
def json_loads (s : String) : Option Json :=
  match parseValue (s.data.length + 1) s.data with
  | some (v, rest) => if (skipWs rest).isEmpty then some v else none
  | none => none

/-- Python `str.strip()` on the file content is falsy exactly when
every character is whitespace (this is the `if not
rules_content.strip()` test of src/main.py line 283). -/
def strippedEmpty (s : String) : Bool := s.data.all isJsonWs

/-- The rules file on disk: either never written, or holding a byte
string. -/
inductive FileState where
  | absent : FileState
  | written : String → FileState
deriving DecidableEq, Repr

/-- Outcome of `GET /api/rules`: the parsed JSON payload, HTTP 404
("Rules not yet generated or file not found."), or HTTP 500 ("Failed to
parse rules file: Invalid JSON"). -/
inductive ReadResult where
  | ok : Json → ReadResult
  | notYetGenerated : ReadResult
  | corruptState : ReadResult

/-- `get_rules` (src/main.py lines 273-294). -/
def get_rules : FileState → ReadResult
  | .absent => .notYetGenerated
  | .written s =>
    if strippedEmpty s then .ok (Json.arr [])
    else
      match json_loads s with
      | some v => .ok v
      | none => .corruptState

/-! ## The mining pass as a store transition -/

/-- Outcome of the MongoDB read performed by `fetch_transactions_sync`:
either the extracted baskets (one list of product ids per transaction
document with a non-empty `items` field), or a raised `PyMongoError`,
or any other exception. -/
inductive SourceResult where
  | ok : List Basket → SourceResult
  | pymongoError : String → SourceResult
  | otherError : String → SourceResult
deriving DecidableEq, Repr

/-- `fetch_transactions_sync` (src/main.py lines 211-226): both
`except` arms log and return the empty list. -/
def fetch_transactions_sync : SourceResult → List Basket
  | .ok txs => txs
  | .pymongoError _ => []
  | .otherError _ => []

/-- Serialisation of one rules list by `json.dump(rules_list, file,
indent=2)`.  The empty list serialises exactly as `[]`; for a non-empty
list the embedding keeps the bracket/brace structure but renders each
number as an exact `num/den` pair and does not reproduce Python float
`repr` or the indent layout — no theorem depends on the non-empty
text. -/
def dumpFrac (f : Frac) : String := toString f.num ++ "/" ++ toString f.den

def dumpStrList (l : List String) : String :=
  "[" ++ String.intercalate "," (l.map (fun s => "\"" ++ s ++ "\"")) ++ "]"

def dumpRule (r : RuleData) : String :=
  "\x7b\"antecedents\": " ++ dumpStrList r.antecedents ++
  ", \"consequents\": " ++ dumpStrList r.consequents ++
  ", \"support\": " ++ dumpFrac r.support ++
  ", \"confidence\": " ++ dumpFrac r.confidence ++
  ", \"lift\": " ++ dumpFrac r.lift ++ "\x7d"

def dumpRules (rs : List RuleData) : String :=
  "[" ++ String.intercalate ", " (rs.map dumpRule) ++ "]"

/-- `update_apriori_rules_sync` (src/main.py lines 228-270) as a
transition on the rules file: when no transactions were fetched
(failure or genuinely empty source) it writes the empty JSON array;
otherwise it mines and writes the full rules list.  The previous file
content is not consulted on any path. -/
def update_apriori_rules_sync (src : SourceResult) : FileState :=
  let transactions := fetch_transactions_sync src
  if transactions.isEmpty then FileState.written (dumpRules [])
  else
    FileState.written
      (dumpRules (apriori_rules_list transactions MIN_SUPPORT MIN_CONFIDENCE MIN_LIFT))

/-- The file contents observable by a concurrent reader while
`update_apriori_rules_sync` rewrites the rules file in place: the old
content (before `open(RULES_FILE_PATH, "w")`), the empty file (mode
`"w"` truncates on open), and the new content (after `json.dump`
returns).  No temporary file plus atomic rename is used anywhere in
src/main.py. -/
def replace_observable_states (old new : String) : List String :=
  [old, "", new]

/-! ## The Thompson-sampling stats store and feedback -/

/-- One document of the `recommendation_stats` MongoDB collection. -/
structure StatsEntry where
  recommendation_id : String
  antecedents : List String
  consequents : List String
  successes : Nat
  failures : Nat
deriving DecidableEq, Repr

/-- The rule identity string of src/main.py lines 143 and 167:
`f"{','.join(rule['antecedents'])}->{','.join(rule['consequents'])}"`. -/
def recommendation_id (antecedents consequents : List String) : String :=
  String.intercalate "," antecedents ++ "->" ++ String.intercalate "," consequents

/-- Rendering of the identity format as the spec words it: the
comma-joined antecedents in recorded order, an arrow, the comma-joined
consequents in recorded order.  Written independently of
`recommendation_id`, to be compared with it. -/
def specJoinComma : List String → String
  | [] => ""
  | [x] => x
  | x :: y :: xs => x ++ "," ++ specJoinComma (y :: xs)

def spec_rule_identity (antecedents consequents : List String) : String :=
  specJoinComma antecedents ++ "->" ++ specJoinComma consequents

/-- MongoDB `update_one({"recommendation_id": rid}, {"$inc": ...})`
with the default `upsert=False`: increment the requested counter on the
first matching document; when no document matches, the collection is
left unchanged and no error is raised. -/
def mongo_update_one_inc (rid : String) (success : Bool) :
    List StatsEntry → List StatsEntry
  | [] => []
  | e :: rest =>
    if e.recommendation_id = rid then
      (if success then { e with successes := e.successes + 1 }
       else { e with failures := e.failures + 1 }) :: rest
    else e :: mongo_update_one_inc rid success rest

/-- `ThompsonSampling.update_stats` (src/main.py lines 189-208). -/
def update_stats (store : List StatsEntry) (rid : String) (success : Bool) :
    List StatsEntry :=
  mongo_update_one_inc rid success store

/-- `submit_feedback` (src/main.py lines 369-380): on the non-exception
path it always answers `{"message": "Feedback recorded successfully"}`,
whatever `update_stats` matched. -/
def submit_feedback (store : List StatsEntry) (rid : String) (success : Bool) :
    String × List StatsEntry :=
  ("Feedback recorded successfully", update_stats store rid success)

/-! ## Recommendation selection -/

/-- The rule filter of `get_recommendations` (src/main.py lines
348-351): `set(user_items_list).issuperset(set(rule["antecedents"]))`,
i.e. every antecedent occurs among the user items. -/
def filtered_rules (user_items_list : List String) (rules : List RuleData) :
    List RuleData :=
  rules.filter (fun rule => rule.antecedents.all (fun a => user_items_list.contains a))

/-- `return [selected_rule] if selected_rule else []`. -/
def selection_to_list : Option RuleData → List RuleData
  | some r => [r]
  | none => []

/-- The candidate handling of `get_recommendations` (src/main.py lines
339-360), parameterised by the (randomised) Thompson-sampling selector:
an empty cart selects over the full rules list, a non-empty cart
selects over the filtered list, and an empty candidate list yields no
recommendation. -/
def get_recommendations (select : List RuleData → Option RuleData)
    (user_items_list : List String) (rules : List RuleData) : List RuleData :=
  if user_items_list.isEmpty then
    if rules.isEmpty then [] else selection_to_list (select rules)
  else
    let fr := filtered_rules user_items_list rules
    if fr.isEmpty then [] else selection_to_list (select fr)

/-! ## The change watcher -/

/-- Modelled from the spec: src/main.py contains no Change Watcher at
all (no basket-change subscription and no re-mining trigger beyond the
startup pass and the explicit `/api/update-rules` endpoint); section
4.3 of the spec describes the intended policy.  The state is the most
recently observed session identity, if any. -/
structure WatcherState where
  lastSession : Option String
deriving DecidableEq, Repr

/-- Modelled from the spec: one basket created/updated event carrying
session identity `s`; the first component says whether a re-mine is
triggered (always on the very first observed event, afterwards exactly
when `s` differs from the immediately preceding observed session), the
second is the successor state. -/
def watcher_step (st : WatcherState) (s : String) : Bool × WatcherState :=
  match st.lastSession with
  | none => (true, ⟨some s⟩)
  | some prev => (decide (prev ≠ s), ⟨some s⟩)

/-- Modelled from the spec: fold of `watcher_step` over an event list,
recording the re-mine decision of every event. -/
def watcher_run (last : Option String) : List String → List Bool
  | [] => []
  | s :: rest => (watcher_step ⟨last⟩ s).1 :: watcher_run (some s) rest

/-- Modelled from the spec: the re-mine decisions over the session
events observed since process start. -/
def remine_flags (events : List String) : List Bool :=
  watcher_run none events

/-! ## Helper lemmas -/

/-- A MongoDB `update_one` with an increment and no upsert leaves a
collection without a matching document unchanged. -/
theorem mongo_update_one_inc_not_found (rid : String) (success : Bool) :
    ∀ store : List StatsEntry,
      (∀ e ∈ store, e.recommendation_id ≠ rid) →
      mongo_update_one_inc rid success store = store := by
  intro store
  induction store with
  | nil => intro _; rfl
  | cons e rest ih =>
    intro h
    have he : ¬ (e.recommendation_id = rid) := h e (List.mem_cons_self e rest)
    simp only [mongo_update_one_inc, if_neg he]
    rw [ih (fun x hx => h x (List.mem_cons_of_mem e hx))]

/-- Index-wise description of the watcher fold: the decision at
position `i` compares the session at `i` with the accumulator (for the
first event) or with the session at `i - 1`. -/
theorem watcher_run_getElem :
    ∀ (es : List String) (last : Option String) (i : Nat),
      (watcher_run last es)[i]? =
        (es[i]?).map (fun s =>
          decide ((if i = 0 then last else es[i - 1]?) ≠ some s)) := by
  intro es
  induction es with
  | nil => intro last i; simp [watcher_run]
  | cons e rest ih =>
    intro last i
    cases i with
    | zero =>
      cases last with
      | none => simp [watcher_run, watcher_step]
      | some prev => simp [watcher_run, watcher_step]
    | succ j =>
      have step : (watcher_run last (e :: rest))[j + 1]? = (watcher_run (some e) rest)[j]? := by
        simp [watcher_run]
      rw [step, ih (some e) j]
      cases j with
      | zero => simp
      | succ k => simp

/-- The accumulator form of `String.intercalate` agrees with the
direct recursion `specJoinComma`. -/
theorem intercalate_go_spec :
    ∀ (as : List String) (acc : String),
      String.intercalate.go acc "," as = specJoinComma (acc :: as) := by
  intro as
  induction as with
  | nil => intro acc; rfl
  | cons a rest ih =>
    intro acc
    have h1 : String.intercalate.go acc "," (a :: rest) =
        String.intercalate.go (acc ++ "," ++ a) "," rest := rfl
    rw [h1, ih (acc ++ "," ++ a)]
    cases rest with
    | nil => rfl
    | cons b bs => simp [specJoinComma, String.append_assoc]

/-- Python `",".join` (`String.intercalate ","`) agrees with
`specJoinComma`. -/
theorem intercalate_comma_eq_specJoin (l : List String) :
    String.intercalate "," l = specJoinComma l := by
  cases l with
  | nil => rfl
  | cons a as => exact intercalate_go_spec as a

/-! ## Claims -/

/-- Claim C1, counterexample: feedback for a rule identity that no
stats document carries (here, any identity against the empty stats
collection) does not produce an `UnknownRule` error: the endpoint
answers with the success acknowledgement and the collection is left
exactly as it was (in particular no fresh entry is created). -/
theorem claim_C1_cex :
    submit_feedback [] "a->b" true = ("Feedback recorded successfully", []) ∧
    update_stats [] "a->b" true = [] :=
  ⟨rfl, rfl⟩

/-- Claim C1, amended: for every rule identity matching no document of
the stats collection, `submit_feedback` silently succeeds — it returns
the success acknowledgement and leaves the stats collection unchanged
(`update_one` without upsert matches nothing, no entry is created, and
no `UnknownRule` condition exists anywhere in the code). -/
theorem claim_C1 (store : List StatsEntry) (rid : String) (success : Bool)
    (h : ∀ e ∈ store, e.recommendation_id ≠ rid) :
    submit_feedback store rid success = ("Feedback recorded successfully", store) := by
  unfold submit_feedback update_stats
  rw [mongo_update_one_inc_not_found rid success store h]

/-- Claim C1, witness: a non-empty collection whose single document
keys a different identity is returned unchanged with a success
acknowledgement. -/
theorem claim_C1_witness :
    submit_feedback [⟨"x->y", ["x"], ["y"], 3, 4⟩] "a->b" true =
      ("Feedback recorded successfully", [⟨"x->y", ["x"], ["y"], 3, 4⟩]) :=
  claim_C1 [⟨"x->y", ["x"], ["y"], 3, 4⟩] "a->b" true (by decide)

/-- Claim C2, counterexample: the rules file is rewritten in place, so
the empty file is an observable intermediate state of a replace taking
the content `[0]` to `[1]`; a read of that state yields the empty
ruleset, which is neither the pre-replace nor the post-replace read. -/
theorem claim_C2_cex :
    "" ∈ replace_observable_states "[0]" "[1]" ∧
    get_rules (FileState.written "") ≠ get_rules (FileState.written "[0]") ∧
    get_rules (FileState.written "") ≠ get_rules (FileState.written "[1]") := by
  refine ⟨by simp [replace_observable_states], fun h => ?_, fun h => ?_⟩
  · have h' : ReadResult.ok (Json.arr []) = ReadResult.ok (Json.arr [Json.num ⟨0, 1⟩]) := h
    injection h' with h1
    injection h1 with h2
    simp at h2
  · have h' : ReadResult.ok (Json.arr []) = ReadResult.ok (Json.arr [Json.num ⟨1, 1⟩]) := h
    injection h' with h1
    injection h1 with h2
    simp at h2

/-- Claim C2, amended: `update_apriori_rules_sync` persists by opening
the rules file with mode `"w"` (truncating it) and writing the new
content, with no temporary file and rename; consequently, whenever the
pre- and post-replace contents both parse to non-empty rule arrays, the
truncated state is observable to a concurrent `get_rules` and reads as
a state that is neither the pre- nor the post-replace set. -/
theorem claim_C2 (old new : String) (ro rn : List Json)
    (ho : get_rules (FileState.written old) = ReadResult.ok (Json.arr ro))
    (hn : get_rules (FileState.written new) = ReadResult.ok (Json.arr rn))
    (hro : ro ≠ []) (hrn : rn ≠ []) :
    "" ∈ replace_observable_states old new ∧
    get_rules (FileState.written "") ≠ get_rules (FileState.written old) ∧
    get_rules (FileState.written "") ≠ get_rules (FileState.written new) := by
  have he : get_rules (FileState.written "") = ReadResult.ok (Json.arr []) := rfl
  refine ⟨by simp [replace_observable_states], ?_, ?_⟩
  · rw [he, ho]
    intro h
    injection h with h1
    injection h1 with h2
    exact hro h2.symm
  · rw [he, hn]
    intro h
    injection h with h1
    injection h1 with h2
    exact hrn h2.symm

/-- Claim C2, witness: instance of the amended statement for a replace
taking the parsed content `[2]` to `[3]`. -/
theorem claim_C2_witness :
    "" ∈ replace_observable_states "[2]" "[3]" ∧
    get_rules (FileState.written "") ≠ get_rules (FileState.written "[2]") ∧
    get_rules (FileState.written "") ≠ get_rules (FileState.written "[3]") :=
  claim_C2 "[2]" "[3]" [Json.num ⟨2, 1⟩] [Json.num ⟨3, 1⟩] rfl rfl (by simp) (by simp)

/-- Claim C3, counterexample: a `PyMongoError` while reading the
basket source produces exactly the same fetch result and exactly the
same rule-store transition as a successful read of an empty source, so
no `SourceUnavailable` condition (nor any other distinguishing signal)
reaches the caller. -/
theorem claim_C3_cex :
    fetch_transactions_sync (SourceResult.pymongoError "boom") =
      fetch_transactions_sync (SourceResult.ok []) ∧
    update_apriori_rules_sync (SourceResult.pymongoError "boom") =
      update_apriori_rules_sync (SourceResult.ok []) :=
  ⟨rfl, rfl⟩

/-- Claim C3, amended: on a read failure from the basket source (a
caught `PyMongoError` or any other exception) the fetch returns the
empty basket list and nothing is raised, and the mining pass then
writes the empty ruleset file — but no `SourceUnavailable` condition is
signalled: the failure outcome coincides with the outcome of a
successful read of an empty source. -/
theorem claim_C3 (e : String) :
    fetch_transactions_sync (SourceResult.pymongoError e) = [] ∧
    fetch_transactions_sync (SourceResult.otherError e) = [] ∧
    update_apriori_rules_sync (SourceResult.pymongoError e) = FileState.written "[]" ∧
    update_apriori_rules_sync (SourceResult.pymongoError e) =
      update_apriori_rules_sync (SourceResult.ok []) :=
  ⟨rfl, rfl, rfl, rfl⟩

/-- Claim C3, witness: the amended statement at the concrete error
message `"network down"`. -/
theorem claim_C3_witness :
    fetch_transactions_sync (SourceResult.pymongoError "network down") = [] ∧
    fetch_transactions_sync (SourceResult.otherError "network down") = [] ∧
    update_apriori_rules_sync (SourceResult.pymongoError "network down") =
      FileState.written "[]" ∧
    update_apriori_rules_sync (SourceResult.pymongoError "network down") =
      update_apriori_rules_sync (SourceResult.ok []) :=
  claim_C3 "network down"

/-- Claim C4: whenever the fetch yields no transactions (source
failure or genuinely empty source), `update_apriori_rules_sync` writes
the empty JSON array over the rules file, so any previously persisted
non-empty ruleset is destroyed: the post-update read differs from every
read of a non-empty state. -/
theorem claim_C4 (src : SourceResult) (old : FileState)
    (h : fetch_transactions_sync src = []) :
    update_apriori_rules_sync src = FileState.written "[]" ∧
    (∀ ro : List Json, get_rules old = ReadResult.ok (Json.arr ro) → ro ≠ [] →
      get_rules (update_apriori_rules_sync src) ≠ get_rules old) := by
  have hu : update_apriori_rules_sync src = FileState.written "[]" := by
    unfold update_apriori_rules_sync
    rw [h]
    rfl
  refine ⟨hu, fun ro hro hne => ?_⟩
  rw [hu, hro]
  have he : get_rules (FileState.written "[]") = ReadResult.ok (Json.arr []) := rfl
  rw [he]
  intro hc
  injection hc with h1
  injection h1 with h2
  exact hne h2.symm

/-- Claim C4, witness: after a source failure, the store that
previously read as the non-empty array `[0]` reads as the empty
array. -/
theorem claim_C4_witness :
    update_apriori_rules_sync (SourceResult.pymongoError "down") = FileState.written "[]" ∧
    get_rules (update_apriori_rules_sync (SourceResult.pymongoError "down")) ≠
      get_rules (FileState.written "[0]") :=
  ⟨(claim_C4 (SourceResult.pymongoError "down") (FileState.written "[0]") rfl).1,
   (claim_C4 (SourceResult.pymongoError "down") (FileState.written "[0]") rfl).2
     [Json.num ⟨0, 1⟩] rfl (by simp)⟩

/-- Claim C5, counterexample: a whitespace-only rules file fails JSON
parsing, yet `get_rules` returns it as the valid empty ruleset instead
of signalling the corrupt-state error (the `if not
rules_content.strip()` branch fires before `json.loads` runs). -/
theorem claim_C5_cex :
    json_loads " " = none ∧
    get_rules (FileState.written " ") = ReadResult.ok (Json.arr []) ∧
    get_rules (FileState.written " ") ≠ ReadResult.corruptState := by
  refine ⟨rfl, rfl, fun h => ?_⟩
  have h' : ReadResult.ok (Json.arr []) = ReadResult.corruptState := h
  exact ReadResult.noConfusion h'

/-- Claim C5, amended: a read of the never-initialised store signals
the not-yet-generated condition; content that strips to nothing is
returned as the valid empty ruleset even though it fails JSON parsing;
non-blank content that fails to parse signals the corrupt-state
condition; non-blank content that parses is returned as its parsed
value; and the three outcome kinds are pairwise distinct. -/
theorem claim_C5 (s : String) (v : Json) :
    get_rules FileState.absent = ReadResult.notYetGenerated ∧
    (strippedEmpty s = true →
      get_rules (FileState.written s) = ReadResult.ok (Json.arr [])) ∧
    (strippedEmpty s = false → json_loads s = none →
      get_rules (FileState.written s) = ReadResult.corruptState) ∧
    (strippedEmpty s = false → json_loads s = some v →
      get_rules (FileState.written s) = ReadResult.ok v) ∧
    ReadResult.notYetGenerated ≠ ReadResult.ok (Json.arr []) ∧
    ReadResult.corruptState ≠ ReadResult.ok (Json.arr []) ∧
    ReadResult.notYetGenerated ≠ ReadResult.corruptState := by
  refine ⟨rfl, fun h1 => ?_, fun h1 h2 => ?_, fun h1 h2 => ?_,
    fun h => ReadResult.noConfusion h, fun h => ReadResult.noConfusion h,
    fun h => ReadResult.noConfusion h⟩
  · simp [get_rules, h1]
  · simp [get_rules, h1, h2]
  · simp [get_rules, h1, h2]

/-- Claim C5, witness: the amended statement instantiated at the
non-blank unparsable content `"not json"`, which reads as the
corrupt-state condition. -/
theorem claim_C5_witness :
    get_rules (FileState.written "not json") = ReadResult.corruptState :=
  (claim_C5 "not json" (Json.arr [])).2.2.1 rfl rfl

/-- Claim C6: over any event list, the watcher triggers a re-mine at
the very first observed basket event, and at any later position exactly
when the session identity differs from the one at the immediately
preceding position. -/
theorem claim_C6 (events : List String) (i : Nat) :
    (remine_flags events)[i]? =
      (events[i]?).map (fun s =>
        decide ((if i = 0 then (none : Option String) else events[i - 1]?) ≠ some s)) :=
  watcher_run_getElem events none i

/-- Claim C7: the mining pass over the single basket `["a"]` (the
failing input) emits the rule with empty antecedent list and consequent
`["a"]` — combined length 1, below the `min_length=2` the code passes —
because `apyori.apriori` ignores the `min_length` keyword; the
empty-input half of the claim does hold: no baskets means the empty
rules list and the empty persisted array. -/
theorem claim_C7 :
    apriori_rules_list [] MIN_SUPPORT MIN_CONFIDENCE MIN_LIFT = [] ∧
    update_apriori_rules_sync (SourceResult.ok []) = FileState.written "[]" ∧
    (RuleData.mk [] ["a"] ⟨1, 1⟩ ⟨1, 1⟩ ⟨1, 1⟩) ∈
      apriori_rules_list [["a"]] MIN_SUPPORT MIN_CONFIDENCE MIN_LIFT ∧
    (RuleData.mk [] ["a"] ⟨1, 1⟩ ⟨1, 1⟩ ⟨1, 1⟩).antecedents.length +
      (RuleData.mk [] ["a"] ⟨1, 1⟩ ⟨1, 1⟩ ⟨1, 1⟩).consequents.length < 2 :=
  ⟨rfl, rfl, by decide, by decide⟩

/-- Claim C8: on the example baskets, the mined rules list contains a
rule with antecedent `["a"]`, consequent `["b"]`, support `2/3` and
confidence `2/3` (stored by the code as the unreduced float quotients
`2/3` and `(2/3)/(3/3)`). -/
theorem claim_C8 :
    ∃ r ∈ apriori_rules_list [["a", "b"], ["a", "b"], ["a", "c"]]
        MIN_SUPPORT MIN_CONFIDENCE MIN_LIFT,
      r.antecedents = ["a"] ∧ r.consequents = ["b"] ∧
      r.support.toRat = 2 / 3 ∧ r.confidence.toRat = 2 / 3 :=
  ⟨⟨["a"], ["b"], ⟨2, 3⟩, ⟨6, 9⟩, ⟨18, 18⟩⟩, by decide,
   rfl, rfl, by norm_num [Frac.toRat], by norm_num [Frac.toRat]⟩

/-- Claim C9: the selection candidates are exactly the rules whose
antecedents all occur in the cart; an empty cart bypasses the filter
and selects over the full rules list; a non-empty cart with no matching
rule yields no recommendation.  The closed conjuncts exercise the
claim's example: with cart `["x"]` the rule with antecedent
`["x", "y"]` is excluded and the one with antecedent `["x"]` is
included, and an empty cart recommends even when the filter would have
excluded everything. -/
theorem claim_C9 :
    (∀ (select : List RuleData → Option RuleData) (cart : List String)
        (rules : List RuleData),
      (∀ r, r ∈ filtered_rules cart rules ↔
        r ∈ rules ∧ ∀ a ∈ r.antecedents, a ∈ cart) ∧
      (cart = [] → get_recommendations select cart rules =
        (if rules.isEmpty then [] else selection_to_list (select rules))) ∧
      (cart ≠ [] → get_recommendations select cart rules =
        (if (filtered_rules cart rules).isEmpty then []
         else selection_to_list (select (filtered_rules cart rules)))) ∧
      (cart ≠ [] → filtered_rules cart rules = [] →
        get_recommendations select cart rules = [])) ∧
    (RuleData.mk ["x"] ["w"] ⟨1, 1⟩ ⟨1, 1⟩ ⟨1, 1⟩) ∈
      filtered_rules ["x"]
        [⟨["x"], ["w"], ⟨1, 1⟩, ⟨1, 1⟩, ⟨1, 1⟩⟩,
         ⟨["x", "y"], ["w"], ⟨1, 1⟩, ⟨1, 1⟩, ⟨1, 1⟩⟩] ∧
    (RuleData.mk ["x", "y"] ["w"] ⟨1, 1⟩ ⟨1, 1⟩ ⟨1, 1⟩) ∉
      filtered_rules ["x"]
        [⟨["x"], ["w"], ⟨1, 1⟩, ⟨1, 1⟩, ⟨1, 1⟩⟩,
         ⟨["x", "y"], ["w"], ⟨1, 1⟩, ⟨1, 1⟩, ⟨1, 1⟩⟩] ∧
    filtered_rules [] [⟨["x"], ["w"], ⟨1, 1⟩, ⟨1, 1⟩, ⟨1, 1⟩⟩] = [] ∧
    get_recommendations (fun l => l.head?) []
        [⟨["x"], ["w"], ⟨1, 1⟩, ⟨1, 1⟩, ⟨1, 1⟩⟩] =
      [⟨["x"], ["w"], ⟨1, 1⟩, ⟨1, 1⟩, ⟨1, 1⟩⟩] := by
  refine ⟨fun select cart rules => ⟨fun r => ?_, fun hc => ?_, fun hc => ?_, fun hc hf => ?_⟩,
    by decide, by decide, by decide, rfl⟩
  · simp [filtered_rules, List.mem_filter, List.all_eq_true, List.elem_iff, List.contains]
  · subst hc
    rfl
  · cases cart with
    | nil => exact absurd rfl hc
    | cons c cs => rfl
  · cases cart with
    | nil => exact absurd rfl hc
    | cons c cs =>
      have h3 : get_recommendations select (c :: cs) rules =
          (if (filtered_rules (c :: cs) rules).isEmpty then []
           else selection_to_list (select (filtered_rules (c :: cs) rules))) := rfl
      rw [h3, hf]
      rfl

/-- Claim C9, witness: a non-empty cart matching no rule antecedent
yields no recommendation. -/
theorem claim_C9_witness :
    get_recommendations (fun l => l.head?) ["z"]
      [⟨["x"], ["w"], ⟨1, 1⟩, ⟨1, 1⟩, ⟨1, 1⟩⟩] = [] :=
  (claim_C9.1 (fun l => l.head?) ["z"]
    [⟨["x"], ["w"], ⟨1, 1⟩, ⟨1, 1⟩, ⟨1, 1⟩⟩]).2.2.2 (by simp) (by decide)

/-- Claim C10: the stats-store key built at src/main.py lines 143 and
167 is the comma-join of the antecedents in recorded order, an arrow,
and the comma-join of the consequents in recorded order; the identity
is order-sensitive — permuting the recorded antecedent order changes
the key, so no sorting or other canonicalisation is applied. -/
theorem claim_C10 :
    (∀ antecedents consequents : List String,
      recommendation_id antecedents consequents =
        spec_rule_identity antecedents consequents) ∧
    recommendation_id ["b", "a"] ["c"] ≠ recommendation_id ["a", "b"] ["c"] := by
  refine ⟨fun a c => ?_, by decide⟩
  unfold recommendation_id spec_rule_identity
  rw [intercalate_comma_eq_specJoin, intercalate_comma_eq_specJoin]
